import Mathlib

/-!
# Verification of the `store` state container

A shallow embedding, in Lean 4, of the reactive state-container library
(a Vuex-like single store written in TypeScript).  The embedding follows
the dependency-tracked source variant (`_initState` with per-property
`deps` sets, `registerGetter` with an `isDirty` flag and the
`runningReaction` slot) together with the functions shared verbatim by
both source variants (`toObjectStyle`, `isPayload`, `isPromise`,
`_withCommit`, the subscriber-notification part of `commit`, and the
`registerAction` result-normalisation wrapper).

JavaScript values are embedded as an inductive type; machine behaviour
that matters to the claims (strict `!==` with `NaN !== NaN`, JS
truthiness, `typeof`, property-key coercion) is made explicit.
-/

namespace StoreModel

/-- JS values as they appear at the `commit` / `dispatch` interface.
Objects are association lists of named fields; `prom v` models a real
`Promise` object that resolves to `v` (such an object has callable
`then` and `catch` members); `func n` is an opaque function value. -/
inductive JSVal where
  | undefVal
  | nullv
  | bool (b : Bool)
  | num (n : Int)
  | nan
  | str (s : String)
  | func (id : Nat)
  | obj (fields : List (String × JSVal))
  | arr (len : Nat)
  | prom (v : JSVal)

/-- JS `typeof` on the embedded values. -/
def typeofVal : JSVal → String
  | .undefVal => "undefined"
  | .nullv => "object"
  | .bool _ => "boolean"
  | .num _ => "number"
  | .nan => "number"
  | .str _ => "string"
  | .func _ => "function"
  | .obj _ => "object"
  | .arr _ => "object"
  | .prom _ => "object"

/-- `isObject` from `utils.ts`: `typeof val === "object" && val !== null`. -/
def isObjectB (v : JSVal) : Bool :=
  typeofVal v == "object" && !(v matches .nullv)

/-- JS truthiness of an embedded value (`undefined`, `null`, `false`,
`0`, `NaN` and `""` are falsy; every object is truthy). -/
def truthy : JSVal → Bool
  | .undefVal => false
  | .nullv => false
  | .bool b => b
  | .num n => n != 0
  | .nan => false
  | .str s => s != ""
  | .func _ => true
  | .obj _ => true
  | .arr _ => true
  | .prom _ => true

/-- Property read `o[k]` on an object's field list: the first field with
the given name, `undefined` when absent. -/
def getFieldList (fields : List (String × JSVal)) (k : String) : JSVal :=
  match fields with
  | [] => .undefVal
  | (k', v) :: rest => if k' = k then v else getFieldList rest k

/-- Property read `v[k]` (only objects carry fields in this model). -/
def getField (v : JSVal) (k : String) : JSVal :=
  match v with
  | .obj fields => getFieldList fields k
  | _ => .undefVal

/-- `isPayload` from `store.ts`: `isObject(val) && val.type` (note the
truthiness test on the `type` field, not a mere presence test). -/
def isPayloadB (v : JSVal) : Bool :=
  isObjectB v && truthy (getField v "type")

/-- The error outcomes a `commit` / `dispatch` call can surface.  The
`unknownMutation` / `unknownAction` constructors embed the dedicated
error classes named by the specification's taxonomy; the code itself
only ever produces `invalidType` (the `TypeError` thrown by
`toObjectStyle`), `guardViolation` (the strict-mode state-write error)
and `notCallable` (the `TypeError` raised by invoking the `undefined`
obtained from looking up an unregistered name). -/
inductive StoreErr where
  | invalidType (msg : String)
  | guardViolation
  | notCallable
  | unknownMutation
  | unknownAction
deriving DecidableEq, Repr

/-- `toObjectStyle` from `store.ts`: object-style normalisation of the
`(type, payload)` arguments, followed by the profile-gated string check.
`notProd` is the `NOT_PRODUCTION` environment flag. -/
def toObjectStyle (notProd : Bool) (t p : JSVal) : Except StoreErr (JSVal × JSVal) :=
  let ty := if isPayloadB t then getField t "type" else t
  let pl := if isPayloadB t then t else p
  if notProd && typeofVal ty != "string" then
    .error (.invalidType ("expects string as the type, but found " ++ typeofVal ty ++ "."))
  else
    .ok (ty, pl)

/-- JS coercion of a value to a property key, as performed by
`this._mutations[type]` when `type` is not a string (reachable only in
the production profile, where the string check is skipped).  The
string-conversion of functions and arrays is abbreviated; no theorem
depends on those branches. -/
def jsToPropKey : JSVal → String
  | .undefVal => "undefined"
  | .nullv => "null"
  | .bool b => cond b "true" "false"
  | .num n => toString n
  | .nan => "NaN"
  | .str s => s
  | .func _ => "function"
  | .obj _ => "[object Object]"
  | .arr _ => ""
  | .prom _ => "[object Promise]"

/-- Handler lookup in a registry modelled as an association list
(`this._mutations[key]` / `this._actions[key]`). -/
def lookupHandler {α : Type} (l : List (String × α)) (k : String) : Option α :=
  match l with
  | [] => none
  | (k', h) :: rest => if k' = k then some h else lookupHandler rest k

/-- `isPromise` from `utils.ts`: `isObject(val) && isFunction(val.then)
&& isFunction(val.catch)`.  A `prom` value is a genuine `Promise` object
and therefore satisfies the duck-typing test. -/
def isPromiseB : JSVal → Bool
  | .prom _ => true
  | .obj fields =>
      typeofVal (getFieldList fields "then") == "function"
        && typeofVal (getFieldList fields "catch") == "function"
  | _ => false

/-- The result normalisation inside the wrapper installed by
`registerAction`: `if (!isPromise(res)) res = Promise.resolve(res)`. -/
def wrapActionResult (res : JSVal) : JSVal :=
  if isPromiseB res then res else .prom res

/-- The `commit` entry point of the Store façade, up to and including
the mutation-handler invocation: normalise the arguments, look up the
handler under the (possibly coerced) property key, and run it on the
state.  Looking up an unregistered name yields `undefined`, and the
subsequent call `mutation(payload)` throws a `TypeError`
(`notCallable`).  Subscriber notification is modelled separately (see
`notifySubscribers`); the write guard is modelled by `withCommit`. -/
def commitM {σ : Type} (notProd : Bool) (mutations : List (String × (σ → JSVal → σ)))
    (st : σ) (t p : JSVal) : Except StoreErr σ :=
  match toObjectStyle notProd t p with
  | .error e => .error e
  | .ok (ty, pl) =>
    match lookupHandler mutations (jsToPropKey ty) with
    | some h => .ok (h st pl)
    | none => .error .notCallable

/-- The `dispatch` entry point of the Store façade: normalise the
arguments, look up the wrapped action, invoke it on the payload and
return its (promise-normalised) result.  An action handler is embedded
as a function from the payload to its raw return value (the `context`
argument the source also passes is not needed by any claim). -/
def dispatchM (notProd : Bool) (actions : List (String × (JSVal → JSVal)))
    (t p : JSVal) : Except StoreErr JSVal :=
  match toObjectStyle notProd t p with
  | .error e => .error e
  | .ok (ty, pl) =>
    match lookupHandler actions (jsToPropKey ty) with
    | some h => .ok (wrapActionResult (h pl))
    | none => .error .notCallable

/-!
## Reactive Cells

`_initState` (dependency-tracked variant) wraps every leaf of the
initial state object in an accessor pair over a captured `currentValue`
and a per-leaf `deps : Set<Function>` of invalidation callbacks.  An
invalidation callback belongs to a registered getter, so callbacks are
identified by getter ids.  Leaf values are embedded with JS strict
(in)equality made explicit: primitives compare by value, composite
values (`ref`) by identity, and `NaN` is unequal to everything,
including itself.
-/

/-- A value stored in one reactive leaf cell.  `ref id` stands for a
composite (object/array) value, compared by reference identity. -/
inductive CellVal where
  | undefVal
  | nullv
  | bool (b : Bool)
  | num (n : Int)
  | nan
  | str (s : String)
  | ref (id : Nat)
deriving DecidableEq, Repr

/-- JS strict equality `===` on cell values: `NaN === x` is always
false; primitives compare by value; composites by identity. -/
def jsStrictEq : CellVal → CellVal → Bool
  | .nan, _ => false
  | _, .nan => false
  | .undefVal, .undefVal => true
  | .nullv, .nullv => true
  | .bool a, .bool b => a == b
  | .num a, .num b => a == b
  | .str a, .str b => a == b
  | .ref a, .ref b => a == b
  | _, _ => false

abbrev GetterId := Nat

/-- `deps.add(fn)`: adding a callback to a JS `Set` keeps one copy. -/
def addDep (g : GetterId) (l : List GetterId) : List GetterId :=
  if g ∈ l then l else l ++ [g]

/-- One reactive leaf: the captured `currentValue` and the `deps` set of
dependent-getter invalidation callbacks. -/
structure Cell where
  value : CellVal
  deps : List GetterId
deriving DecidableEq, Repr

/-- The success path of the cell setter: `if (newVal !== currentValue)
deps.forEach(fn => fn()); currentValue = newVal`.  Returns the updated
cell together with the list of invalidation callbacks fired, in firing
order. -/
def cellWrite (cell : Cell) (v : CellVal) : Cell × List GetterId :=
  if jsStrictEq v cell.value then ({ cell with value := v }, [])
  else ({ cell with value := v }, cell.deps)

/-- The full cell setter including the write-guard check:
`if (store.strict && !store.isCommitting && NOT_PRODUCTION) throw ...`.
The guard check precedes the assignment, so an error leaves the cell
untouched. -/
def cellSet (strict isCommitting notProd : Bool) (cell : Cell) (v : CellVal) :
    Except StoreErr (Cell × List GetterId) :=
  if strict && !isCommitting && notProd then .error .guardViolation
  else .ok (cellWrite cell v)

/-- Association-list update used for ordinary (non-reactive) JS data
properties: overwrite in place if present, append otherwise. -/
def setAssoc (l : List (String × CellVal)) (k : String) (v : CellVal) :
    List (String × CellVal) :=
  match l with
  | [] => [(k, v)]
  | (k', v') :: rest => if k' = k then (k, v) :: rest else (k', v') :: setAssoc rest k v

/-- Association-list lookup. -/
def lookupAssoc {α : Type} (l : List (String × α)) (k : String) : Option α :=
  match l with
  | [] => none
  | (k', v) :: rest => if k' = k then some v else lookupAssoc rest k

/-- One level of the state object produced by `_initState`: the keys
present in the initial object are wrapped in reactive accessor
properties (one `Cell` each); keys assigned later become ordinary,
extensible data properties with no accessor behaviour. -/
structure StateObj where
  reactive : List (String × Cell)
  plain : List (String × CellVal)

/-- Assignment `state[k] = v`.  A key wrapped at construction goes
through the guarded reactive setter; any other key is an ordinary
property creation/update on the extensible plain object — it performs
no guard check and fires no invalidation callback. -/
def writeKey (strict isCommitting notProd : Bool) (st : StateObj) (k : String)
    (v : CellVal) : Except StoreErr (StateObj × List GetterId) :=
  match lookupAssoc st.reactive k with
  | some cell =>
    match cellSet strict isCommitting notProd cell v with
    | .error e => .error e
    | .ok (cell', fired) =>
        .ok ({ st with reactive := setAssocCell st.reactive k cell' }, fired)
  | none => .ok ({ st with plain := setAssoc st.plain k v }, [])
where
  /-- update of the reactive property map -/
  setAssocCell (l : List (String × Cell)) (k : String) (c : Cell) :
      List (String × Cell) :=
    match l with
    | [] => [(k, c)]
    | (k', c') :: rest =>
        if k' = k then (k, c) :: rest else (k', c') :: setAssocCell rest k c

/-- Read `state[k]`.  A reactive property's getter registers
`store.runningReaction` (when set) in the cell's `deps`; an ordinary
data property is returned as-is with no dependency registration. -/
def readKey (st : StateObj) (k : String) (running : Option GetterId) :
    CellVal × StateObj :=
  match lookupAssoc st.reactive k with
  | some cell =>
    match running with
    | some g =>
        (cell.value,
          { st with
            reactive := writeKey.setAssocCell st.reactive k
              { cell with deps := addDep g cell.deps } })
    | none => (cell.value, st)
  | none =>
    match lookupAssoc st.plain k with
    | some v => (v, st)
    | none => (.undefVal, st)

/-!
## The write-guard scope (`_withCommit`)

```
const isCommitting = this.isCommitting;
this.isCommitting = true;
cb();
this.isCommitting = isCommitting;
```

The restoring assignment follows `cb()` with no `try`/`finally`, so it
runs only when the callback returns normally.  The store state visible
to the callback is embedded as a structure with the `isCommitting`
flag, an invocation counter and an observation log (the latter two are
instrumentation fields a handler may use; the source's store carries
further fields irrelevant to the guard).  A callback either returns
normally (`none`) or throws (`some ()`), in both cases leaving the
store in the state it produced. -/

structure GuardSt where
  isCommitting : Bool
  calls : Nat
  observed : List Bool
  val : Int
deriving DecidableEq, Repr

/-- `_withCommit`: save the guard, set it, run the callback, and — only
on normal return — restore the saved value. -/
def withCommit (cb : GuardSt → Option Unit × GuardSt) (s : GuardSt) :
    Option Unit × GuardSt :=
  let prior := s.isCommitting
  let (e, s') := cb { s with isCommitting := true }
  match e with
  | none => (none, { s' with isCommitting := prior })
  | some u => (some u, s')

/-- Instrumentation wrapper: a handler that records its own invocation
(bumping `calls`) and the guard value it observes, then behaves as
`f`. -/
def instr (f : GuardSt → Option Unit × GuardSt) : GuardSt → Option Unit × GuardSt :=
  fun s => f { s with calls := s.calls + 1, observed := s.isCommitting :: s.observed }

/-!
## Subscriber notification (`commit`, second half)

```
const subscribersCopy = setFromForeachable(subscribers);
subscribersCopy.forEach(sub => sub(mutationArguments, state));
```

Subscribers are identified by ids; the live subscriber `Set` is a
duplicate-free list.  What a subscriber does to the subscriber set when
invoked is embedded as a list of add/remove operations per id;
iteration runs over the snapshot copy, while the operations act on the
live set. -/

inductive SubOp where
  | add (i : Nat)
  | remove (i : Nat)

/-- Effect of one subscription-set operation on the live set:
`Set.add` keeps one copy, `Set.delete` removes the member. -/
def applySubOp (l : List Nat) : SubOp → List Nat
  | .add i => if i ∈ l then l else l ++ [i]
  | .remove i => l.filter (· ≠ i)

/-- Iterate over the snapshot: invoke each subscriber (appending the
invocation `(id, record, state)` to the log) and apply its effects to
the live set. -/
def notifyGo (effects : Nat → List SubOp) (rec : JSVal × JSVal) (st : Int)
    (snapshot live : List Nat) :
    List (Nat × (JSVal × JSVal) × Int) × List Nat :=
  match snapshot with
  | [] => ([], live)
  | i :: rest =>
    let live' := (effects i).foldl applySubOp live
    let (log, liveEnd) := notifyGo effects rec st rest live'
    ((i, rec, st) :: log, liveEnd)

/-- The notification phase of `commit`: snapshot the live set, then
iterate over the snapshot. -/
def notifySubscribers (effects : Nat → List SubOp) (rec : JSVal × JSVal)
    (st : Int) (live : List Nat) :
    List (Nat × (JSVal × JSVal) × Int) × List Nat :=
  notifyGo effects rec st live live

/-- `commit` for a store with subscribers, abstracting the state to an
integer and the mutation to its effect `h` on that state: run the
handler, build the mutation record, then notify the snapshot of the
subscriber set with the post-mutation state. -/
def commitWithSubs (h : Int → Int) (effects : Nat → List SubOp)
    (ty pl : JSVal) (st : Int) (live : List Nat) :
    Int × List (Nat × (JSVal × JSVal) × Int) × List Nat :=
  let st' := h st
  let (log, live') := notifySubscribers effects (ty, pl) st' live
  (st', log, live')

/-!
## The dependency-tracked getter engine

`registerGetter` (dependency-tracked variant):

```
const getter = () => handler(store.state, store.getters);
let isDirty = false;
store.runningReaction = () => (isDirty = true);
let value = getter();
store.runningReaction = null;
Object.defineProperty(store._getters, type, {
  get() {
    if (isDirty) { value = getter(); isDirty = false; }
    return value;
  },
});
```

`store.runningReaction` is set only around the registration-time eager
evaluation; a recomputation triggered from the property getter runs
with `runningReaction === null`, so the reads it performs register no
dependencies.

A getter's handler reads state leaves through the reactive property
getters, so its interaction with the store is fully described by the
sequence of leaf reads it performs and the value it returns.  Handlers
are embedded as a small expression language whose evaluation returns
the value together with the read trace; conditionals make the read
trace genuinely input-dependent, as it is for JS handlers. -/

abbrev CellId := Nat

/-- Getter-handler expressions: literals, leaf reads, and conditionals
on JS truthiness. -/
inductive GExp where
  | lit (v : CellVal)
  | readCell (c : CellId)
  | ite (cond thenB elseB : GExp)

/-- Truthiness of a cell value (for the embedded conditionals). -/
def cellTruthy : CellVal → Bool
  | .undefVal => false
  | .nullv => false
  | .bool b => b
  | .num n => n != 0
  | .nan => false
  | .str s => s != ""
  | .ref _ => true

/-- Evaluate a handler expression on a leaf environment, returning its
value and the trace of leaf reads it performed, in order. -/
def geval (e : GExp) (env : CellId → CellVal) : CellVal × List CellId :=
  match e with
  | .lit v => (v, [])
  | .readCell c => (env c, [c])
  | .ite cond thenB elseB =>
    let (cv, t1) := geval cond env
    if cellTruthy cv then
      let (v, t2) := geval thenB env
      (v, t1 ++ t2)
    else
      let (v, t2) := geval elseB env
      (v, t1 ++ t2)

/-- The reactive store as the getter engine sees it: leaf values, the
per-leaf `deps` sets of dependent getters, and per-getter cached value,
dirty flag and registered handler. -/
structure RStore where
  cells : CellId → CellVal
  deps : CellId → List GetterId
  cache : GetterId → CellVal
  dirty : GetterId → Bool
  gfun : GetterId → GExp

/-- `registerGetter`: eagerly evaluate the handler with
`runningReaction` set (every leaf read during this evaluation adds the
getter's invalidation callback to that leaf's `deps`), cache the value,
record the handler, and start clean. -/
def registerGetter (s : RStore) (g : GetterId) (e : GExp) : RStore :=
  let (v, trace) := geval e s.cells
  { s with
    cache := fun g' => if g' = g then v else s.cache g'
    dirty := fun g' => if g' = g then false else s.dirty g'
    gfun := fun g' => if g' = g then e else s.gfun g'
    deps := fun c => if c ∈ trace then addDep g (s.deps c) else s.deps c }

/-- Reading `getters[g]`: if dirty, re-run the handler (with
`runningReaction === null`, so the read trace registers no new
dependencies), cache the result and clear the flag; otherwise return
the cache.  The third component counts the handler invocations this
read performed. -/
def readGetter (s : RStore) (g : GetterId) : CellVal × RStore × Nat :=
  if s.dirty g then
    let (v, _trace) := geval (s.gfun g) s.cells
    (v,
      { s with
        cache := fun g' => if g' = g then v else s.cache g'
        dirty := fun g' => if g' = g then false else s.dirty g' },
      1)
  else (s.cache g, s, 0)

/-- The success path of a leaf write inside a commit, acting on the
whole reactive store: fire the leaf's dependents (each callback sets
its getter's dirty flag) exactly when the new value is `!==` the
current one, then store the new value.  A write never evaluates a
getter handler and never touches a cache. -/
def writeLeaf (s : RStore) (c : CellId) (v : CellVal) : RStore :=
  if jsStrictEq v (s.cells c) then
    { s with cells := fun c' => if c' = c then v else s.cells c' }
  else
    { s with
      dirty := fun g => if g ∈ s.deps c then true else s.dirty g
      cells := fun c' => if c' = c then v else s.cells c' }

/-- A sequence of guarded leaf writes (the writes a mutation handler
performs during one or more commits). -/
def applyWrites (s : RStore) (ws : List (CellId × CellVal)) : RStore :=
  match ws with
  | [] => s
  | (c, v) :: rest => applyWrites (writeLeaf s c v) rest

/-- Does the write sequence leave every leaf carrying `g` in its `deps`
set unchanged (in the `!==` sense) at the moment of each write?  This
is the "no state leaf the getter depends on changed value"
condition. -/
def noDepChange (g : GetterId) (s : RStore) (ws : List (CellId × CellVal)) : Bool :=
  match ws with
  | [] => true
  | (c, v) :: rest =>
    (!(g ∈ (s.deps c) : Bool) || jsStrictEq v (s.cells c))
      && noDepChange g (writeLeaf s c v) rest

/-!
## Concrete scenarios

Closed store configurations used to evaluate the general statements on
concrete inputs. -/

/-- A two-leaf reactive store before any getter registration: leaf `0`
holds `0`, leaf `1` holds `5`, no dependents, nothing cached. -/
def cexInit : RStore where
  cells := fun c => if c = 0 then .num 0 else if c = 1 then .num 5 else .undefVal
  deps := fun _ => []
  cache := fun _ => .undefVal
  dirty := fun _ => false
  gfun := fun _ => .lit .undefVal

/-- A getter whose read-set depends on state: `state.a ? state.b : 99`
(leaf `0` is `a`, leaf `1` is `b`). -/
def cexExp : GExp := .ite (.readCell 0) (.readCell 1) (.lit (.num 99))

/-- Register the conditional getter: the eager evaluation reads only
leaf `0` (since `a = 0` is falsy), so only leaf `0` records the getter
as a dependent. -/
def cexS0 : RStore := registerGetter cexInit 0 cexExp

/-- A commit sets `a := 1` (a real change), marking the getter dirty. -/
def cexS1 : RStore := writeLeaf cexS0 0 (.num 1)

/-- The next read of the getter: recomputes once, reading leaves `0`
and `1`, and caches `b = 5`. -/
def cexR1 : CellVal × RStore × Nat := readGetter cexS1 0

/-- A commit sets `b := 7` — a change to a leaf the getter read during
its most recent evaluation. -/
def cexS2 : RStore := writeLeaf cexR1.2.1 1 (.num 7)

/-- The read after that commit. -/
def cexR2 : CellVal × RStore × Nat := readGetter cexS2 0

/-- A one-leaf store with one registered getter that reads leaf `0`
(used to instantiate the memoization statement). -/
def memoW : RStore :=
  registerGetter
    { cells := fun _ => .num 1
      deps := fun _ => []
      cache := fun _ => .undefVal
      dirty := fun _ => false
      gfun := fun _ => .lit .undefVal }
    0 (.readCell 0)

/-- Numeric view of a payload value (used by the concrete `"X"`
mutation handlers below, which add the payload to an integer state). -/
def payloadNum : JSVal → Int
  | .num n => n
  | _ => 0

/-!
## Theorems
-/

/-- C3.  With `strict = true` in a development/test profile
(`NOT_PRODUCTION` true), a write to a reactive leaf performed while no
mutation is executing (`isCommitting` false) fails with the
state-mutation-outside-commit error — the check precedes the
assignment, so no updated cell is produced and the leaf keeps its
previous value — while with `strict = false` the guard check is skipped
for every guard/profile combination and the write succeeds, storing the
new value. -/
theorem strict_guard_blocks_external_writes
    (cell : Cell) (v : CellVal) (ic np : Bool) :
    cellSet true false true cell v = .error .guardViolation
    ∧ cellSet false ic np cell v = .ok (cellWrite cell v)
    ∧ (cellWrite cell v).1.value = v := by
  refine ⟨rfl, rfl, ?_⟩
  unfold cellWrite
  split <;> rfl

/-- C6.  In a non-production profile, whenever the type resolved by
payload normalization is not a string, `commit` and `dispatch` fail
with the invalid-type error carrying the message
`expects string as the type, but found <typeof>.` — the failure is
produced before any handler lookup or invocation, so it is independent
of the registered handlers and of the state (which is therefore left
unchanged); in the production profile the check is skipped and no
invalid-type error can arise. -/
theorem commit_dispatch_invalid_type {σ : Type}
    (t p : JSVal)
    (muts : List (String × (σ → JSVal → σ))) (st : σ)
    (acts : List (String × (JSVal → JSVal)))
    (hty : typeofVal (if isPayloadB t then getField t "type" else t) ≠ "string") :
    commitM true muts st t p
        = .error (.invalidType ("expects string as the type, but found "
            ++ typeofVal (if isPayloadB t then getField t "type" else t) ++ "."))
    ∧ dispatchM true acts t p
        = .error (.invalidType ("expects string as the type, but found "
            ++ typeofVal (if isPayloadB t then getField t "type" else t) ++ "."))
    ∧ (∀ m, commitM false muts st t p ≠ .error (.invalidType m))
    ∧ (∀ m, dispatchM false acts t p ≠ .error (.invalidType m)) := by
  have hstep : toObjectStyle true t p
      = .error (.invalidType ("expects string as the type, but found "
          ++ typeofVal (if isPayloadB t then getField t "type" else t) ++ ".")) := by
    unfold toObjectStyle
    simp only [Bool.true_and]
    rw [if_pos]
    simpa using hty
  have hprod : toObjectStyle false t p
      = .ok (if isPayloadB t then getField t "type" else t,
             if isPayloadB t then t else p) := by
    unfold toObjectStyle
    simp
  refine ⟨?_, ?_, ?_, ?_⟩
  · unfold commitM; rw [hstep]
  · unfold dispatchM; rw [hstep]
  · intro m
    unfold commitM
    rw [hprod]
    cases hl : lookupHandler muts
        (jsToPropKey (if isPayloadB t then getField t "type" else t)) <;> simp [hl]
  · intro m
    unfold dispatchM
    rw [hprod]
    cases hl : lookupHandler acts
        (jsToPropKey (if isPayloadB t then getField t "type" else t)) <;> simp [hl]

/-- C6 witness: `commit(undefined, 2)` and `dispatch(undefined, 2)` in
the test profile throw the invalid-type error identifying `undefined`,
independent of the registry; in production no invalid-type error
occurs. -/
theorem commit_dispatch_invalid_type_witness :
    commitM (σ := Int) true [] 0 .undefVal (.num 2)
        = .error (.invalidType "expects string as the type, but found undefined.")
    ∧ (∀ m, commitM (σ := Int) false [] 0 .undefVal (.num 2) ≠ .error (.invalidType m)) := by
  have h := commit_dispatch_invalid_type (σ := Int)
    .undefVal (.num 2) [] 0 [] (by decide)
  exact ⟨h.1, h.2.2.1⟩

/-- C2 counterexample.  Committing the never-registered name `"X"` on a
store with no mutations fails with the `TypeError` produced by invoking
the `undefined` lookup result (`notCallable`), not with a dedicated
unknown-mutation error; likewise `dispatch` fails with `notCallable`,
not with a dedicated unknown-action error.  No code path produces the
`unknownMutation` / `unknownAction` errors the claim names. -/
theorem unknown_name_error_cex :
    commitM (σ := Int) true [] 0 (.str "X") .undefVal = .error .notCallable
    ∧ commitM (σ := Int) true [] 0 (.str "X") .undefVal ≠ .error .unknownMutation
    ∧ dispatchM true [] (.str "X") .undefVal = .error .notCallable
    ∧ dispatchM true [] (.str "X") .undefVal ≠ .error .unknownAction := by
  refine ⟨rfl, ?_, rfl, ?_⟩
  · intro h
    have h' : StoreErr.notCallable = StoreErr.unknownMutation :=
      Except.error.inj ((rfl :
        commitM (σ := Int) true [] 0 (.str "X") .undefVal
          = .error .notCallable).symm.trans h)
    exact StoreErr.noConfusion h'
  · intro h
    have h' : StoreErr.notCallable = StoreErr.unknownAction :=
      Except.error.inj ((rfl :
        dispatchM true [] (.str "X") .undefVal
          = .error .notCallable).symm.trans h)
    exact StoreErr.noConfusion h'

/-- C2 amended.  For every name that was never registered, in every
profile: `commit(name, payload)` and `dispatch(name, payload)` fail —
with the `TypeError` thrown by calling the `undefined` obtained from
the registry lookup, not with a dedicated unknown-name error — and in
particular neither call ever succeeds or resolves. -/
theorem unknown_name_always_fails {σ : Type} (notProd : Bool)
    (muts : List (String × (σ → JSVal → σ))) (st : σ)
    (acts : List (String × (JSVal → JSVal)))
    (name : String) (p : JSVal)
    (hm : lookupHandler muts name = none)
    (ha : lookupHandler acts name = none) :
    commitM notProd muts st (.str name) p = .error .notCallable
    ∧ dispatchM notProd acts (.str name) p = .error .notCallable := by
  have hnorm : toObjectStyle notProd (.str name) p = .ok (.str name, p) := by
    unfold toObjectStyle
    simp [isPayloadB, isObjectB, typeofVal]
  constructor
  · unfold commitM
    rw [hnorm]
    simpa [jsToPropKey] using congrArg (fun o => (match o with
      | some h => Except.ok (h st p)
      | none => Except.error StoreErr.notCallable : Except StoreErr σ)) hm
  · unfold dispatchM
    rw [hnorm]
    simpa [jsToPropKey] using congrArg (fun o => (match o with
      | some h => Except.ok (wrapActionResult (h p))
      | none => Except.error StoreErr.notCallable : Except StoreErr JSVal)) ha

/-- C2 witness: the never-registered name `"nope"` on a store with one
unrelated mutation and one unrelated action fails on both paths. -/
theorem unknown_name_always_fails_witness :
    commitM true [("inc", fun (s : Int) (_ : JSVal) => s + 1)] 0 (.str "nope") .undefVal
        = .error .notCallable
    ∧ dispatchM true [("act", fun (_ : JSVal) => .num 1)] (.str "nope") .undefVal
        = .error .notCallable :=
  unknown_name_always_fails true [("inc", fun (s : Int) (_ : JSVal) => s + 1)] 0
    [("act", fun (_ : JSVal) => .num 1)] "nope" .undefVal rfl rfl

/-- C5 counterexample.  The object `{type: ""}` carries a `type` field,
yet `commit`/`dispatch` do not resolve the handler name from it:
`isPayload` tests the truthiness of the `type` field, so the falsy
`""` sends normalization down the positional branch, the object itself
becomes the resolved type, and (in a non-production profile) an
invalid-type error is thrown instead of the claimed normalization
`(type = "", payload = o)`. -/
theorem object_style_falsy_type_cex :
    getField (.obj [("type", .str "")]) "type" = .str ""
    ∧ toObjectStyle true (.obj [("type", .str "")]) (.num 2)
        = .error (.invalidType "expects string as the type, but found object.")
    ∧ ∀ (pr : JSVal × JSVal),
        toObjectStyle true (.obj [("type", .str "")]) (.num 2) ≠ .ok pr := by
  refine ⟨rfl, rfl, ?_⟩
  intro pr h
  exact Except.noConfusion ((rfl :
    toObjectStyle true (.obj [("type", .str "")]) (.num 2)
      = .error (.invalidType "expects string as the type, but found object.")).symm.trans h)

/-- C5 amended.  For every object whose `type` field holds a truthy
value (here: a non-empty string), `commit`/`dispatch` resolve the
handler name from that field and pass the object itself as the payload;
for a string first argument, the first argument is the type and the
second the payload; and `commit("X", n)` against a handler reading the
payload directly is observably equivalent to
`commit({type: "X", amount: n})` against a handler reading
`payload.amount`: both succeed and produce the same state. -/
theorem object_style_normalization_amended
    (fields : List (String × JSVal)) (s : String) (p : JSVal) (np : Bool)
    (n st : Int)
    (hty : getField (.obj fields) "type" = .str s)
    (hne : s ≠ "") :
    toObjectStyle np (.obj fields) p = .ok (.str s, .obj fields)
    ∧ (∀ (s' : String) (p' : JSVal), toObjectStyle np (.str s') p' = .ok (.str s', p'))
    ∧ commitM np [("X", fun (a : Int) (pl : JSVal) => a + payloadNum pl)]
        st (.str "X") (.num n) = .ok (st + n)
    ∧ commitM np [("X", fun (a : Int) (pl : JSVal) => a + payloadNum (getField pl "amount"))]
        st (.obj [("type", .str "X"), ("amount", .num n)]) .undefVal = .ok (st + n) := by
  refine ⟨?_, ?_, ?_, ?_⟩
  · unfold toObjectStyle
    simp [isPayloadB, isObjectB, typeofVal, hty, truthy, hne]
  · intro s' p'
    unfold toObjectStyle
    simp [isPayloadB, isObjectB, typeofVal]
  · simp [commitM, toObjectStyle, isPayloadB, isObjectB, typeofVal, jsToPropKey,
      lookupHandler, payloadNum]
  · simp [commitM, toObjectStyle, isPayloadB, isObjectB, typeofVal, truthy, getField,
      getFieldList, jsToPropKey, lookupHandler, payloadNum]

/-- C5 witness: the object `{type: "go"}` normalizes to type `"go"`
with itself as payload, and the two call styles of the `"X"` mutation
starting from state `10` with amount `4` both yield state `14`. -/
theorem object_style_normalization_witness :
    toObjectStyle true (.obj [("type", .str "go")]) (.num 1)
        = .ok (.str "go", .obj [("type", .str "go")])
    ∧ commitM true [("X", fun (a : Int) (pl : JSVal) => a + payloadNum pl)]
        10 (.str "X") (.num 4) = .ok 14
    ∧ commitM true [("X", fun (a : Int) (pl : JSVal) => a + payloadNum (getField pl "amount"))]
        10 (.obj [("type", .str "X"), ("amount", .num 4)]) .undefVal = .ok 14 := by
  have h := object_style_normalization_amended [("type", .str "go")] "go" (.num 1)
    true 4 10 rfl (by decide)
  exact ⟨h.1, h.2.2.1, h.2.2.2⟩

/-- C8.  For every registered action and payload, `dispatch` succeeds
and returns an awaitable: the wrapper's result always satisfies
`isPromise`; when the handler's return value already satisfies
`isPromise` (an object with callable `then` and `catch`, or a real
promise) it is returned as-is, and otherwise it is wrapped in a promise
resolving immediately to that value. -/
theorem dispatch_returns_awaitable
    (acts : List (String × (JSVal → JSVal))) (name : String)
    (f : JSVal → JSVal) (p : JSVal) (np : Bool)
    (hreg : lookupHandler acts name = some f) :
    dispatchM np acts (.str name) p = .ok (wrapActionResult (f p))
    ∧ isPromiseB (wrapActionResult (f p)) = true
    ∧ (isPromiseB (f p) = true → wrapActionResult (f p) = f p)
    ∧ (isPromiseB (f p) = false → wrapActionResult (f p) = .prom (f p)) := by
  have hnorm : toObjectStyle np (.str name) p = .ok (.str name, p) := by
    unfold toObjectStyle
    simp [isPayloadB, isObjectB, typeofVal]
  refine ⟨?_, ?_, ?_, ?_⟩
  · unfold dispatchM
    rw [hnorm]
    show (match lookupHandler acts name with
      | some h => Except.ok (wrapActionResult (h p))
      | none => Except.error StoreErr.notCallable) = _
    rw [hreg]
  · cases hp : isPromiseB (f p)
    · unfold wrapActionResult
      rw [hp]
      rfl
    · unfold wrapActionResult
      rw [hp]
      simpa using hp
  · intro hp; simp [wrapActionResult, hp]
  · intro hp; simp [wrapActionResult, hp]

/-- C8 witness: an action returning the plain value `3` dispatches to a
promise resolving to `3`, and an action returning a promise dispatches
to that same promise un-rewrapped. -/
theorem dispatch_returns_awaitable_witness :
    dispatchM true [("plain", fun (_ : JSVal) => .num 3)] (.str "plain") .undefVal
        = .ok (.prom (.num 3))
    ∧ dispatchM true [("already", fun (_ : JSVal) => .prom (.num 3))] (.str "already") .undefVal
        = .ok (.prom (.num 3)) := by
  have h1 := dispatch_returns_awaitable [("plain", fun (_ : JSVal) => .num 3)] "plain"
    (fun _ => .num 3) .undefVal true rfl
  have h2 := dispatch_returns_awaitable [("already", fun (_ : JSVal) => .prom (.num 3))]
    "already" (fun _ => .prom (.num 3)) .undefVal true rfl
  exact ⟨h1.1.trans (congrArg Except.ok (h1.2.2.2 rfl)),
    h2.1.trans (congrArg Except.ok (h2.2.2.1 rfl))⟩

/-- C9.  A write to a reactive leaf inside a commit succeeds for every
`strict`/profile combination; when the new value is `!==` the stored
one, the fired callbacks are exactly the registered dependents — each
at most once per write even if registered repeatedly, since `Set.add`
(`addDep`) keeps the dependent list duplicate-free — when the values
are `===` no callback fires; afterwards the stored value is the new
value; and `NaN !== NaN`, so writing `NaN` over `NaN` counts as a
change. -/
theorem cell_write_invalidation
    (cell : Cell) (v : CellVal) (strict np : Bool)
    (hnodup : cell.deps.Nodup) :
    cellSet strict true np cell v = .ok (cellWrite cell v)
    ∧ (jsStrictEq v cell.value = false →
        (cellWrite cell v).2 = cell.deps
        ∧ ∀ g ∈ cell.deps, ((cellWrite cell v).2).count g = 1)
    ∧ (jsStrictEq v cell.value = true → (cellWrite cell v).2 = [])
    ∧ (cellWrite cell v).1.value = v
    ∧ jsStrictEq CellVal.nan CellVal.nan = false
    ∧ (∀ (g : GetterId) (l : List GetterId), l.Nodup → (addDep g l).Nodup) := by
  refine ⟨?_, ?_, ?_, ?_, rfl, ?_⟩
  · unfold cellSet
    simp
  · intro hne
    have hfire : (cellWrite cell v).2 = cell.deps := by
      unfold cellWrite
      simp [hne]
    exact ⟨hfire, fun g hg => by
      rw [hfire]; exact List.count_eq_one_of_mem hnodup hg⟩
  · intro heq
    unfold cellWrite
    simp [heq]
  · unfold cellWrite
    split <;> rfl
  · intro g l hl
    unfold addDep
    split
    · exact hl
    · rename_i hmem
      simpa using List.Nodup.append hl (List.nodup_singleton g)
        (by simpa using hmem)

/-- C9 witness: writing `NaN` over `NaN` on a cell with dependents
`[3, 7]` fires each of the two callbacks exactly once and stores the
new `NaN`; writing `1` over `1` fires none. -/
theorem cell_write_invalidation_witness :
    cellWrite { value := .nan, deps := [3, 7] } .nan = ({ value := .nan, deps := [3, 7] }, [3, 7])
    ∧ (cellWrite { value := .nan, deps := [3, 7] } .nan).2.count 3 = 1
    ∧ cellWrite { value := .num 1, deps := [3, 7] } (.num 1) = ({ value := .num 1, deps := [3, 7] }, []) := by
  have h1 := cell_write_invalidation { value := .nan, deps := [3, 7] } .nan true true
    (by decide)
  have h2 := cell_write_invalidation { value := .num 1, deps := [3, 7] } (.num 1) true true
    (by decide)
  refine ⟨?_, (h1.2.1 rfl).2 3 (by decide), ?_⟩
  · have hfire := (h1.2.1 rfl).1
    have hval := h1.2.2.2.1
    exact Prod.ext (by decide) hfire
  · have := h2.2.2.1 rfl
    exact Prod.ext (by decide) this

/-- Updating a plain property and reading it back yields the written
value. -/
theorem lookupAssoc_setAssoc (l : List (String × CellVal)) (k : String) (v : CellVal) :
    lookupAssoc (setAssoc l k v) k = some v := by
  induction l with
  | nil => simp [setAssoc, lookupAssoc]
  | cons hd tl ih =>
    obtain ⟨k', v'⟩ := hd
    by_cases hk : k' = k
    · simp [setAssoc, hk, lookupAssoc]
    · simp [setAssoc, hk, lookupAssoc, ih]

/-- C10.  Assigning to a state key that was not present in the initial
state object succeeds silently even with `strict = true`, outside any
mutation, in a development/test profile: no guard violation is raised
and no invalidation callback fires.  The created key is an ordinary
property: a subsequent read returns the stored value without
registering any getter dependency (the store is returned unchanged even
while a tracking slot is active), and a subsequent write again bypasses
the guard entirely. -/
theorem unwrapped_key_bypasses_guard
    (st : StateObj) (k : String) (v v' : CellVal) (g : GetterId)
    (h : lookupAssoc st.reactive k = none) :
    writeKey true false true st k v = .ok ({ st with plain := setAssoc st.plain k v }, [])
    ∧ readKey { st with plain := setAssoc st.plain k v } k (some g)
        = (v, { st with plain := setAssoc st.plain k v })
    ∧ writeKey true false true { st with plain := setAssoc st.plain k v } k v'
        = .ok ({ st with plain := setAssoc (setAssoc st.plain k v) k v' }, []) := by
  refine ⟨?_, ?_, ?_⟩
  · unfold writeKey
    rw [h]
  · unfold readKey
    rw [show ({ st with plain := setAssoc st.plain k v } : StateObj).reactive
          = st.reactive from rfl, h, lookupAssoc_setAssoc]
  · unfold writeKey
    rw [show ({ st with plain := setAssoc st.plain k v } : StateObj).reactive
          = st.reactive from rfl, h]

/-- C10 witness: on a store whose initial state had the single key
`"a"`, assigning `"b"` outside any mutation with `strict = true` in the
test profile succeeds, reads back, and accepts a second unguarded
write. -/
theorem unwrapped_key_bypasses_guard_witness :
    writeKey true false true
        { reactive := [("a", { value := .num 1, deps := [] })], plain := [] }
        "b" (.num 2)
      = .ok ({ reactive := [("a", { value := .num 1, deps := [] })],
               plain := [("b", .num 2)] }, [])
    ∧ readKey { reactive := [("a", { value := .num 1, deps := [] })],
                plain := [("b", .num 2)] } "b" (some 0)
      = (.num 2, { reactive := [("a", { value := .num 1, deps := [] })],
                   plain := [("b", .num 2)] }) :=
  ⟨(unwrapped_key_bypasses_guard
      { reactive := [("a", { value := .num 1, deps := [] })], plain := [] }
      "b" (.num 2) (.num 3) 0 rfl).1,
   (unwrapped_key_bypasses_guard
      { reactive := [("a", { value := .num 1, deps := [] })], plain := [] }
      "b" (.num 2) (.num 3) 0 rfl).2.1⟩

/-- The invocation log of the notification loop is determined by the
snapshot alone: whatever the invoked subscribers do to the live set,
iteration proceeds over the immutable copy. -/
theorem notifyGo_log (effects : Nat → List SubOp) (rec : JSVal × JSVal) (st : Int) :
    ∀ (snapshot live : List Nat),
      (notifyGo effects rec st snapshot live).1
        = snapshot.map (fun i => (i, rec, st)) := by
  intro snapshot
  induction snapshot with
  | nil => intro live; rfl
  | cons i rest ih =>
    intro live
    simp [notifyGo, ih]

/-- C7.  After the mutation handler runs, exactly the subscribers
present in the subscriber set at the start of notification are invoked,
each exactly once, each with the mutation record and the post-mutation
state; a subscriber not in that snapshot (e.g. one added during
notification) is never invoked for this commit; and the invocation log
is entirely independent of what the invoked subscribers do to the
subscriber set (so unsubscribing during a callback cannot affect
delivery to the other subscribers of the current commit). -/
theorem commit_notifies_snapshot
    (h : Int → Int) (effects effects' : Nat → List SubOp)
    (ty pl : JSVal) (st : Int) (live : List Nat)
    (hnodup : live.Nodup) :
    (commitWithSubs h effects ty pl st live).2.1
        = live.map (fun i => (i, (ty, pl), h st))
    ∧ (∀ i ∈ live,
        ((commitWithSubs h effects ty pl st live).2.1.map Prod.fst).count i = 1)
    ∧ (∀ j, j ∉ live →
        ∀ e ∈ (commitWithSubs h effects ty pl st live).2.1, e.1 ≠ j)
    ∧ (commitWithSubs h effects ty pl st live).2.1
        = (commitWithSubs h effects' ty pl st live).2.1 := by
  have hlog : (commitWithSubs h effects ty pl st live).2.1
      = live.map (fun i => (i, (ty, pl), h st)) := by
    unfold commitWithSubs notifySubscribers
    simp [notifyGo_log]
  have hfst : ∀ (l : List Nat), (l.map (fun i => (i, (ty, pl), h st))).map Prod.fst = l := by
    intro l
    induction l with
    | nil => rfl
    | cons a tl ih => simpa using ih
  have hids : (commitWithSubs h effects ty pl st live).2.1.map Prod.fst = live := by
    rw [hlog]
    exact hfst live
  refine ⟨hlog, ?_, ?_, ?_⟩
  · intro i hi
    rw [hids]
    exact List.count_eq_one_of_mem hnodup hi
  · intro j hj e he
    rw [hlog] at he
    obtain ⟨i, hi, rfl⟩ := List.mem_map.mp he
    intro hij
    exact hj (hij ▸ hi)
  · rw [hlog]
    unfold commitWithSubs notifySubscribers
    simp [notifyGo_log]

/-- C7 witness: with live subscribers `[1, 2]` where subscriber `1`
unsubscribes `2` and subscribes `5` during its callback, both `1` and
`2` are still invoked exactly once for the commit, with the record and
post-mutation state, and `5` is not invoked. -/
theorem commit_notifies_snapshot_witness :
    (commitWithSubs (fun a => a + 1)
        (fun i => if i = 1 then [.remove 2, .add 5] else []) (.str "TEST") (.num 2)
        0 [1, 2]).2.1
      = [(1, (.str "TEST", .num 2), 1), (2, (.str "TEST", .num 2), 1)]
    ∧ (∀ e ∈ (commitWithSubs (fun a => a + 1)
        (fun i => if i = 1 then [.remove 2, .add 5] else []) (.str "TEST") (.num 2)
        0 [1, 2]).2.1, e.1 ≠ 5) :=
  ⟨(commit_notifies_snapshot (fun a => a + 1)
      (fun i => if i = 1 then [.remove 2, .add 5] else [])
      (fun _ => []) (.str "TEST") (.num 2) 0 [1, 2] (by decide)).1,
   (commit_notifies_snapshot (fun a => a + 1)
      (fun i => if i = 1 then [.remove 2, .add 5] else [])
      (fun _ => []) (.str "TEST") (.num 2) 0 [1, 2] (by decide)).2.2.1
      5 (by decide)⟩

/-- The instrumentation fields of the store after `_withCommit` are
exactly those the callback produced (on both exit paths only the
`isCommitting` flag is ever adjusted afterwards). -/
theorem withCommit_result (cb : GuardSt → Option Unit × GuardSt) (s : GuardSt) :
    (withCommit cb s).2.calls = (cb { s with isCommitting := true }).2.calls
    ∧ (withCommit cb s).2.observed = (cb { s with isCommitting := true }).2.observed := by
  unfold withCommit
  rcases h : cb { s with isCommitting := true } with ⟨e, s'⟩
  cases e <;> simp [h]

/-- C4 counterexample.  `_withCommit` has no `try`/`finally`: with the
guard initially false, a handler that throws leaves `isCommitting`
stuck at `true` — the prior value is not restored on the throwing exit
path. -/
theorem withCommit_throw_guard_cex :
    ({ isCommitting := false, calls := 0, observed := [], val := 0 } : GuardSt).isCommitting
        = false
    ∧ (withCommit (fun t => (some (), t))
        { isCommitting := false, calls := 0, observed := [], val := 0 }).2.isCommitting
        = true :=
  ⟨rfl, rfl⟩

/-- C4 amended.  `_withCommit` runs the wrapped handler exactly once,
synchronously, and the handler observes the write guard as true (its
behaviour on guard-false states is irrelevant to the outcome); when the
handler returns normally the guard is restored to its prior value; but
when the handler throws, the restoring assignment after `cb()` is
skipped (there is no `try`/`finally`) and the store is left exactly as
the throwing handler produced it — with the guard still set. -/
theorem withCommit_guard_scope
    (f f' cb : GuardSt → Option Unit × GuardSt) (s s₁ : GuardSt)
    (hcalls : ∀ t, ((f t).2).calls = t.calls)
    (hobs : ∀ t, ((f t).2).observed = t.observed)
    (hagree : ∀ t, t.isCommitting = true → f t = f' t) :
    (withCommit (instr f) s).2.calls = s.calls + 1
    ∧ (withCommit (instr f) s).2.observed = true :: s.observed
    ∧ withCommit f s = withCommit f' s
    ∧ (cb { s with isCommitting := true } = (none, s₁) →
        withCommit cb s = (none, { s₁ with isCommitting := s.isCommitting }))
    ∧ (cb { s with isCommitting := true } = (some (), s₁) →
        withCommit cb s = (some (), s₁)) := by
  refine ⟨?_, ?_, ?_, ?_, ?_⟩
  · exact (withCommit_result (instr f) s).1.trans (hcalls _)
  · exact (withCommit_result (instr f) s).2.trans (hobs _)
  · unfold withCommit
    rw [hagree { s with isCommitting := true } rfl]
  · intro hcb
    unfold withCommit
    rw [hcb]
  · intro hcb
    unfold withCommit
    rw [hcb]

/-- C4 witness: a do-nothing handler wrapped by `_withCommit` on a
guard-false store is invoked exactly once, observes the guard as true,
and the guard is restored on its normal return. -/
theorem withCommit_guard_scope_witness :
    (withCommit (instr (fun t => (none, t)))
        { isCommitting := false, calls := 0, observed := [], val := 5 }).2.calls = 0 + 1
    ∧ (withCommit (instr (fun t => (none, t)))
        { isCommitting := false, calls := 0, observed := [], val := 5 }).2.observed
        = true :: []
    ∧ withCommit (fun t => (none, t))
        { isCommitting := false, calls := 0, observed := [], val := 5 }
        = (none, { isCommitting := false, calls := 0, observed := [], val := 5 }) := by
  have h := withCommit_guard_scope (fun t => (none, t)) (fun t => (none, t))
    (fun t => (none, t))
    { isCommitting := false, calls := 0, observed := [], val := 5 }
    { isCommitting := true, calls := 0, observed := [], val := 5 }
    (fun _ => rfl) (fun _ => rfl) (fun _ _ => rfl)
  exact ⟨h.1, h.2.1, h.2.2.2.1 rfl⟩

/-- Leaf writes never touch a getter cache. -/
theorem writeLeaf_cache (s : RStore) (c : CellId) (v : CellVal) :
    (writeLeaf s c v).cache = s.cache := by
  unfold writeLeaf
  split <;> rfl

/-- Leaf writes never change the registered handlers. -/
theorem writeLeaf_gfun (s : RStore) (c : CellId) (v : CellVal) :
    (writeLeaf s c v).gfun = s.gfun := by
  unfold writeLeaf
  split <;> rfl

/-- A whole write sequence never touches a getter cache. -/
theorem applyWrites_cache (ws : List (CellId × CellVal)) :
    ∀ (s : RStore), (applyWrites s ws).cache = s.cache := by
  induction ws with
  | nil => intro s; rfl
  | cons cv rest ih =>
    intro s
    obtain ⟨c, v⟩ := cv
    rw [applyWrites, ih, writeLeaf_cache]

/-- A write sequence that changes (in the `!==` sense) no leaf carrying
the getter in its dependency set leaves the getter's dirty flag
untouched. -/
theorem applyWrites_dirty (g : GetterId) (ws : List (CellId × CellVal)) :
    ∀ (s : RStore), noDepChange g s ws = true →
      (applyWrites s ws).dirty g = s.dirty g := by
  induction ws with
  | nil => intro s _; rfl
  | cons cv rest ih =>
    intro s h
    obtain ⟨c, v⟩ := cv
    rw [noDepChange, Bool.and_eq_true] at h
    obtain ⟨h1, h2⟩ := h
    have hdirty : (writeLeaf s c v).dirty g = s.dirty g := by
      unfold writeLeaf
      split
      · rfl
      · rename_i hne
        have hnotdep : g ∉ s.deps c := by
          by_contra hmem
          simp [hmem] at h1
          exact hne h1
        simp [hnotdep]
    rw [applyWrites, ih _ h2, hdirty]

/-- Reading a clean getter returns the cache, leaves the store as it
is, and performs no handler invocation. -/
theorem readGetter_clean (s : RStore) (g : GetterId) (h : s.dirty g = false) :
    readGetter s g = (s.cache g, s, 0) := by
  unfold readGetter
  rw [h]
  simp

/-- Reading a dirty getter re-runs its handler on the current leaves
(performing exactly one invocation), caches the result and clears the
flag — without registering any dependency, since the tracking slot is
null outside registration. -/
theorem readGetter_dirty (s : RStore) (g : GetterId) (h : s.dirty g = true) :
    readGetter s g = ((geval (s.gfun g) s.cells).1,
      { s with
        cache := fun g' => if g' = g then (geval (s.gfun g) s.cells).1 else s.cache g'
        dirty := fun g' => if g' = g then false else s.dirty g' }, 1) := by
  unfold readGetter
  rw [h]
  rcases hg : geval (s.gfun g) s.cells with ⟨gv, gtr⟩
  simp [hg]

/-- C1 counterexample.  Register the getter `state.a ? state.b : 99`
over `a = 0, b = 5`.  A commit sets `a := 1`; the next read recomputes
once (one invocation) and returns `b = 5`, and leaf `1` (`b`) is in
that evaluation's read trace.  A further commit sets `b := 7` — a
change to a leaf the getter read — yet the next read performs zero
re-invocations and returns the stale `5`, while a fresh evaluation at
the current state yields `7`: recomputation registered no dependency on
`b`, because `runningReaction` is only set during registration. -/
theorem getter_stale_dependency_cex :
    cexR1.1 = .num 5
    ∧ cexR1.2.2 = 1
    ∧ 1 ∈ (geval cexExp cexS1.cells).2
    ∧ jsStrictEq (.num 7) (cexR1.2.1.cells 1) = false
    ∧ cexR2.2.2 = 0
    ∧ cexR2.1 = .num 5
    ∧ (geval cexExp cexS2.cells).1 = .num 7 := by
  decide

/-- C1 amended.  For every registered getter `g`, with dependencies as
recorded in the per-leaf `deps` sets (populated only by `g`'s
registration-time evaluation, since the tracking slot is set only
during registration — recomputations register no new dependencies):
after any sequence of guarded writes that changed no leaf carrying `g`
in its `deps` set, a clean `g` stays clean and re-reading `getters[g]`
returns the cached value with zero handler invocations; commits never
evaluate handlers (no cache entry changes at commit time); and a write
that does change a leaf carrying `g` in its `deps` set marks `g` dirty
without evaluating it, so that the next read re-invokes the handler
exactly once (on the post-write leaves), and an immediately following
read invokes it zero times. -/
theorem getter_memoization_amended
    (s : RStore) (g : GetterId) (ws : List (CellId × CellVal))
    (c : CellId) (v : CellVal)
    (hclean : s.dirty g = false)
    (hnochange : noDepChange g s ws = true)
    (hdep : g ∈ s.deps c)
    (hchanged : jsStrictEq v (s.cells c) = false) :
    ((applyWrites s ws).dirty g = false
      ∧ readGetter (applyWrites s ws) g = (s.cache g, applyWrites s ws, 0))
    ∧ (applyWrites s ws).cache = s.cache
    ∧ ((writeLeaf s c v).dirty g = true
        ∧ (writeLeaf s c v).cache = s.cache
        ∧ (readGetter (writeLeaf s c v) g).2.2 = 1
        ∧ (readGetter (writeLeaf s c v) g).1
            = (geval (s.gfun g) ((writeLeaf s c v).cells)).1
        ∧ (readGetter ((readGetter (writeLeaf s c v) g).2.1) g).2.2 = 0) := by
  have hd : (applyWrites s ws).dirty g = false :=
    (applyWrites_dirty g ws s hnochange).trans hclean
  have hwdirty : (writeLeaf s c v).dirty g = true := by
    unfold writeLeaf
    rw [if_neg (by simp [hchanged])]
    simp [hdep]
  have hread := readGetter_dirty (writeLeaf s c v) g hwdirty
  refine ⟨⟨hd, ?_⟩, applyWrites_cache ws s, hwdirty, writeLeaf_cache s c v, ?_, ?_, ?_⟩
  · rw [readGetter_clean _ _ hd, applyWrites_cache]
  · rw [hread]
  · rw [hread, writeLeaf_gfun]
  · have hdirty2 : ((readGetter (writeLeaf s c v) g).2.1).dirty g = false := by
      rw [hread]
      simp
    rw [readGetter_clean _ g hdirty2]

/-- C1 amended witness: a one-leaf store with a getter reading leaf
`0`; a commit writing the unchanged value `1` leaves the getter clean
and its re-read free, while writing `2` dirties it and the next read
recomputes exactly once. -/
theorem getter_memoization_amended_witness :
    readGetter (applyWrites memoW [(0, .num 1)]) 0
        = (memoW.cache 0, applyWrites memoW [(0, .num 1)], 0)
    ∧ (writeLeaf memoW 0 (.num 2)).dirty 0 = true
    ∧ (readGetter (writeLeaf memoW 0 (.num 2)) 0).2.2 = 1 := by
  have h := getter_memoization_amended memoW 0 [(0, .num 1)] 0 (.num 2)
    (by decide) (by decide) (by decide) (by decide)
  exact ⟨h.1.2, h.2.2.1, h.2.2.2.2.1⟩

end StoreModel
